import Mathlib

/-!
Verification development for the parallel UI-variation orchestrator
(`scripts/parallel-claude-manager.js` and `scripts/git-worktree-manager.js`).

The JavaScript source is shallowly embedded: pure helpers become Lean
functions, the event-loop interleaving of the async orchestrator becomes a
small-step transition relation, and `JSON.parse` is modelled by an executable
fuel-based JSON parser (an exception becomes `none`).
-/

namespace ClaudeOrchestrator

/-! ## JSON values and a model of `JSON.parse`

`parseClaudeOutput` calls `JSON.parse` on one line of worker stdout.  We model
parse success/failure with a recursive-descent parser over the character list.
A number is kept as its raw lexeme: no claim depends on numeric decoding, only
on which strings are syntactically valid JSON.
-/

/-- A parsed JSON value.  `num` stores the raw lexeme of the number. -/
inductive Json where
  | null : Json
  | bool (b : Bool) : Json
  | num (raw : String) : Json
  | str (s : String) : Json
  | arr (elems : List Json) : Json
  | obj (members : List (String × Json)) : Json
deriving Repr

/-- The left-brace character, written via its code point. -/
def lbrace : Char := Char.ofNat 123

/-- The right-brace character, written via its code point. -/
def rbrace : Char := Char.ofNat 125

/-- JSON insignificant whitespace (space, tab, line feed, carriage return). -/
def isJsonWs (c : Char) : Bool :=
  c == ' ' || c == '\t' || c == '\n' || c == '\r'

/-- Drop leading JSON whitespace. -/
def skipJsonWs : List Char → List Char
  | [] => []
  | c :: cs => if isJsonWs c then skipJsonWs cs else c :: cs

/-- Hexadecimal digit test, for \u escapes. -/
def isHexDigitChar (c : Char) : Bool :=
  c.isDigit || (97 ≤ c.toNat && c.toNat ≤ 102) || (65 ≤ c.toNat && c.toNat ≤ 70)

/-- Numeric value of a hexadecimal digit. -/
def hexVal (c : Char) : Nat :=
  if c.isDigit then c.toNat - 48
  else if 97 ≤ c.toNat then c.toNat - 87
  else c.toNat - 55

/-- Decode a two-character escape (\n, \t, ...); quote, backslash and slash
denote themselves. -/
def escChar (e : Char) : Char :=
  if e == 'b' then Char.ofNat 8
  else if e == 'f' then Char.ofNat 12
  else if e == 'n' then '\n'
  else if e == 'r' then '\r'
  else if e == 't' then '\t'
  else e

/-- Parse the body of a JSON string literal (the opening quote already
consumed), returning the decoded characters and the rest of the input. -/
def parseJsonStringBody : Nat → List Char → Option (List Char × List Char)
  | 0, _ => none
  | _, [] => none
  | fuel + 1, c :: cs =>
    if c == '"' then some ([], cs)
    else if c == '\\' then
      match cs with
      | [] => none
      | e :: cs2 =>
        if e == 'u' then
          match cs2 with
          | h1 :: h2 :: h3 :: h4 :: cs3 =>
            if isHexDigitChar h1 && isHexDigitChar h2 && isHexDigitChar h3 &&
                isHexDigitChar h4 then
              (parseJsonStringBody fuel cs3).map (fun r =>
                (Char.ofNat (((hexVal h1 * 16 + hexVal h2) * 16 + hexVal h3) * 16
                  + hexVal h4) :: r.1, r.2))
            else none
          | _ => none
        else if e == '"' || e == '\\' || e == '/' || e == 'b' || e == 'f' ||
            e == 'n' || e == 'r' || e == 't' then
          (parseJsonStringBody fuel cs2).map (fun r => (escChar e :: r.1, r.2))
        else none
    else if c.toNat < 32 then none
    else (parseJsonStringBody fuel cs).map (fun r => (c :: r.1, r.2))

/-- Take a maximal run of decimal digits. -/
def takeDigits : List Char → List Char × List Char
  | [] => ([], [])
  | c :: cs =>
    if c.isDigit then
      let r := takeDigits cs
      (c :: r.1, r.2)
    else ([], c :: cs)

/-- Optional fraction part of a JSON number. -/
def parseFracPart : List Char → Option (List Char × List Char)
  | '.' :: cs =>
    match takeDigits cs with
    | ([], _) => none
    | (ds, rest) => some ('.' :: ds, rest)
  | cs => some ([], cs)

/-- Optional exponent part of a JSON number. -/
def parseExpPart : List Char → Option (List Char × List Char)
  | [] => some ([], [])
  | c :: cs =>
    if c == 'e' || c == 'E' then
      let signAndRest : List Char × List Char :=
        match cs with
        | s :: rest => if s == '+' || s == '-' then ([s], rest) else ([], cs)
        | [] => ([], cs)
      match takeDigits signAndRest.2 with
      | ([], _) => none
      | (ds, rest) => some (c :: signAndRest.1 ++ ds, rest)
    else some ([], c :: cs)

/-- Parse a JSON number lexeme (sign, integer part, fraction, exponent). -/
def parseJsonNumber (cs0 : List Char) : Option (List Char × List Char) :=
  let signAndRest : List Char × List Char :=
    match cs0 with
    | '-' :: rest => (['-'], rest)
    | _ => ([], cs0)
  match signAndRest.2 with
  | [] => none
  | c :: rest =>
    let intAndRest : Option (List Char × List Char) :=
      if c == '0' then some (signAndRest.1 ++ ['0'], rest)
      else if c.isDigit then
        let r := takeDigits rest
        some (signAndRest.1 ++ c :: r.1, r.2)
      else none
    match intAndRest with
    | none => none
    | some (lex1, rest1) =>
      match parseFracPart rest1 with
      | none => none
      | some (frac, rest2) =>
        match parseExpPart rest2 with
        | none => none
        | some (ex, rest3) => some (lex1 ++ frac ++ ex, rest3)

mutual

/-- Parse one JSON value after skipping leading whitespace. -/
def parseJsonValue : Nat → List Char → Option (Json × List Char)
  | 0, _ => none
  | fuel + 1, cs0 =>
    match skipJsonWs cs0 with
    | [] => none
    | c :: cs =>
      if c == '"' then
        (parseJsonStringBody (cs.length + 1) cs).map (fun r =>
          (Json.str (String.mk r.1), r.2))
      else if c == lbrace then
        match skipJsonWs cs with
        | [] => none
        | d :: ds =>
          if d == rbrace then some (Json.obj [], ds)
          else (parseJsonMembers fuel (d :: ds)).map (fun r => (Json.obj r.1, r.2))
      else if c == '[' then
        match skipJsonWs cs with
        | [] => none
        | d :: ds =>
          if d == ']' then some (Json.arr [], ds)
          else (parseJsonElements fuel (d :: ds)).map (fun r => (Json.arr r.1, r.2))
      else if c == 't' then
        match cs with
        | 'r' :: 'u' :: 'e' :: rest => some (Json.bool true, rest)
        | _ => none
      else if c == 'f' then
        match cs with
        | 'a' :: 'l' :: 's' :: 'e' :: rest => some (Json.bool false, rest)
        | _ => none
      else if c == 'n' then
        match cs with
        | 'u' :: 'l' :: 'l' :: rest => some (Json.null, rest)
        | _ => none
      else
        (parseJsonNumber (c :: cs)).map (fun r => (Json.num (String.mk r.1), r.2))

/-- Parse the elements of a non-empty JSON array, up to the closing bracket. -/
def parseJsonElements : Nat → List Char → Option (List Json × List Char)
  | 0, _ => none
  | fuel + 1, cs =>
    match parseJsonValue fuel cs with
    | none => none
    | some (v, rest) =>
      match skipJsonWs rest with
      | ',' :: rest2 =>
        (parseJsonElements fuel rest2).map (fun r => (v :: r.1, r.2))
      | ']' :: rest2 => some ([v], rest2)
      | _ => none

/-- Parse the members of a non-empty JSON object, up to the closing brace. -/
def parseJsonMembers : Nat → List Char → Option (List (String × Json) × List Char)
  | 0, _ => none
  | fuel + 1, cs =>
    match skipJsonWs cs with
    | '"' :: cs2 =>
      match parseJsonStringBody (cs2.length + 1) cs2 with
      | none => none
      | some (keyChars, rest) =>
        match skipJsonWs rest with
        | ':' :: rest2 =>
          match parseJsonValue fuel rest2 with
          | none => none
          | some (v, rest3) =>
            match skipJsonWs rest3 with
            | ',' :: rest4 =>
              (parseJsonMembers fuel rest4).map (fun r =>
                ((String.mk keyChars, v) :: r.1, r.2))
            | d :: rest4 =>
              if d == rbrace then some ([(String.mk keyChars, v)], rest4)
              else none
            | _ => none
        | _ => none
    | _ => none

end

/-- Model of `JSON.parse(s)`: `some v` when it returns a value, `none` when it
throws a `SyntaxError`.  The input must be one value surrounded only by
whitespace. -/
def jsonParse (s : String) : Option Json :=
  match parseJsonValue (2 * s.length + 8) s.data with
  | none => none
  | some (v, rest) => if (skipJsonWs rest).isEmpty then some v else none

/-! ## Worker stdout parsing (`parseClaudeOutput`, `parseStructuredOutput`)

`waitForProcessCompletion` accumulates the whole stdout string; on process
close the result carries `parseClaudeOutput(stdout)`.  The JS string methods
used there — `split('\n')`, `trim()`, `startsWith`, `includes`, and the
`match(/Marker: (.+)/)` regexes — are modelled character by character.
-/

/-- JS `stdout.split('\n')`: split at every line feed, keeping empty pieces. -/
def splitLines (s : String) : List String :=
  splitAux s.data []
where
  splitAux : List Char → List Char → List String
    | [], acc => [String.mk acc.reverse]
    | c :: cs, acc =>
      if c == '\n' then String.mk acc.reverse :: splitAux cs []
      else splitAux cs (c :: acc)

/-- JS `line.trim()` (restricted to the ASCII whitespace that matters here). -/
def trimJs (s : String) : String :=
  String.mk (((s.data.dropWhile isJsonWs).reverse.dropWhile isJsonWs).reverse)

/-- JS `a.includes(pat)` for a non-empty pattern. -/
def strIncludes (s pat : String) : Bool :=
  containsAux pat.data s.data
where
  containsAux (pat : List Char) : List Char → Bool
    | [] => pat.isEmpty
    | c :: cs => pat.isPrefixOf (c :: cs) || containsAux pat cs

/-- Take the characters the regex `.` can match: everything up to a line
terminator (`\n` never occurs inside a split line, so only `\r` matters). -/
def takeRegexDot (cs : List Char) : List Char :=
  cs.takeWhile (fun c => !(c == '\r'))

/-- Model of `line.match(/Marker: (.+)/)[1]`: the capture at the leftmost
occurrence of the literal marker that is followed by at least one `.`-matchable
character; `none` when the regex does not match. -/
def matchCapture (marker : String) (line : String) : Option String :=
  (findAux marker.data line.data).map String.mk
where
  findAux (pat : List Char) : List Char → Option (List Char)
    | [] => none
    | c :: cs =>
      if pat.isPrefixOf (c :: cs) then
        let cap := takeRegexDot ((c :: cs).drop pat.length)
        if cap.isEmpty then findAux pat cs else some cap
      else findAux pat cs

/-- The object built by `parseStructuredOutput`. -/
structure StructuredOutput where
  screenshots : List String
  reports : List String
  changes : List String
  errors : List String
deriving Repr, DecidableEq

/-- One loop iteration of `parseStructuredOutput`: each marker is tested
independently on the line; `Error:` lines are kept whole. -/
def processLine (acc : StructuredOutput) (line : String) : StructuredOutput :=
  let acc1 :=
    if strIncludes line "Screenshot saved:" then
      match matchCapture "Screenshot saved: " line with
      | some m => { acc with screenshots := acc.screenshots ++ [m] }
      | none => acc
    else acc
  let acc2 :=
    if strIncludes line "Report generated:" then
      match matchCapture "Report generated: " line with
      | some m => { acc1 with reports := acc1.reports ++ [m] }
      | none => acc1
    else acc1
  let acc3 :=
    if strIncludes line "File modified:" then
      match matchCapture "File modified: " line with
      | some m => { acc2 with changes := acc2.changes ++ [m] }
      | none => acc2
    else acc2
  if strIncludes line "Error:" then { acc3 with errors := acc3.errors ++ [line] }
  else acc3

/-- Marker-based fallback extraction over every stdout line. -/
def parseStructuredOutput (stdout : String) : StructuredOutput :=
  (splitLines stdout).foldl processLine ⟨[], [], [], []⟩

/-- What `parseClaudeOutput` returns: either a parsed JSON value or the
marker-extraction object. -/
inductive ClaudeOutput where
  | json (v : Json) : ClaudeOutput
  | structured (s : StructuredOutput) : ClaudeOutput
deriving Repr

/-- The filter `line.trim().startsWith('{') || line.trim().startsWith('[')`. -/
def isJsonishLine (line : String) : Bool :=
  match (trimJs line).data with
  | [] => false
  | c :: _ => c == lbrace || c == '['

/-- Model of `parseClaudeOutput`: `JSON.parse` is attempted on the last line
that looks like JSON; a parse exception (or the absence of such a line) falls
back to `parseStructuredOutput` on the whole stdout. -/
def parseClaudeOutput (stdout : String) : ClaudeOutput :=
  match ((splitLines stdout).filter isJsonishLine).getLast? with
  | none => ClaudeOutput.structured (parseStructuredOutput stdout)
  | some line =>
    match jsonParse line with
    | some v => ClaudeOutput.json v
    | none => ClaudeOutput.structured (parseStructuredOutput stdout)

/-- The result object built in the `close` handler of
`waitForProcessCompletion`. -/
structure CloseResult where
  success : Bool
  exitCode : Int
  outputs : ClaudeOutput

/-- The `close` handler: `success` is exactly `code === 0`, and `outputs` is
the parsed stdout. -/
def handleClose (code : Int) (stdout : String) : CloseResult :=
  { success := code == 0, exitCode := code, outputs := parseClaudeOutput stdout }

/-- The status `startClaudeProcess` stores after the completion promise
resolves: `result.success ? 'completed' : 'failed'`. -/
def statusAfterClose (r : CloseResult) : String :=
  if r.success then "completed" else "failed"

/-! ## The bounded worker pool as a small-step system

`startClaudeProcess` is an `async` function; its suspension points are the
`await`s.  One submitted task is therefore a coroutine moving through phases:

* `submitted`  — the call has not yet executed the capacity check
  (`activeProcesses.size >= maxConcurrentProcesses`, line 133);
* `waiting`    — the check saw a full registry and the task sits in
  `waitForAvailableSlot`'s polling loop;
* `spawning`   — the check (or a poll) saw a free slot and the task is
  suspended at `await spawnClaudeProcess`;
* `running`    — the spawn resolved: the task was stored in `activeProcesses`
  with status 'running' and `started`/`active` were incremented (lines
  159-163), and it now awaits process completion;
* `finished`   — the process closed (or the completion promise rejected on a
  timeout or spawn error): the counters were updated and the task was deleted
  from `activeProcesses` in the `finally` block (lines 170-196).

`activeProcesses.size` counts exactly the tasks in phase `running`.
-/

/-- Coroutine phase of one submitted task. -/
inductive Phase where
  | submitted : Phase
  | waiting : Phase
  | spawning : Phase
  | running : Phase
  | finished : Phase
deriving DecidableEq, BEq, Repr

/-- The `processStats` counters.  `active` is an `Int` because the code
decrements it in paths that never incremented it. -/
structure PoolStats where
  started : Nat
  completed : Nat
  failed : Nat
  active : Int
deriving DecidableEq, Repr

/-- State of one orchestration session's pool: the phase of every submitted
task plus the aggregate counters. -/
structure PoolState where
  phases : List Phase
  stats : PoolStats
deriving DecidableEq, Repr

/-- The value of `activeProcesses.size` (and the number of tasks whose status
is 'running'). -/
def runningCount (s : PoolState) : Nat :=
  (s.phases.filter (fun p => p == Phase.running)).length

/-- Replace the phase of task `i`. -/
def setPhase (s : PoolState) (i : Nat) (p : Phase) : PoolState :=
  { s with phases := s.phases.set i p }

/-- Counter update at registration: `started++; active++`. -/
def startStats (st : PoolStats) : PoolStats :=
  { st with started := st.started + 1, active := st.active + 1 }

/-- Counter update when a task ends: `active--` and `completed++` or
`failed++` depending on the outcome. -/
def closeStats (st : PoolStats) (ok : Bool) : PoolStats :=
  { st with
    active := st.active - 1
    completed := st.completed + (if ok then 1 else 0)
    failed := st.failed + (if ok then 0 else 1) }

/-- One event-loop step of the pool.  The capacity check and the slot poll
read `activeProcesses.size` at the moment they run; registration happens only
when the spawn `await` resumes, in a later step. -/
inductive PoolStep (C : Nat) : PoolState → PoolState → Prop where
  | checkPass (s : PoolState) (i : Nat)
      (hi : s.phases.get? i = some Phase.submitted)
      (h : runningCount s < C) :
      PoolStep C s (setPhase s i Phase.spawning)
  | checkFull (s : PoolState) (i : Nat)
      (hi : s.phases.get? i = some Phase.submitted)
      (h : ¬ runningCount s < C) :
      PoolStep C s (setPhase s i Phase.waiting)
  | pollPass (s : PoolState) (i : Nat)
      (hi : s.phases.get? i = some Phase.waiting)
      (h : runningCount s < C) :
      PoolStep C s (setPhase s i Phase.spawning)
  | spawned (s : PoolState) (i : Nat)
      (hi : s.phases.get? i = some Phase.spawning) :
      PoolStep C s { setPhase s i Phase.running with stats := startStats s.stats }
  | closed (s : PoolState) (i : Nat) (ok : Bool)
      (hi : s.phases.get? i = some Phase.running) :
      PoolStep C s { setPhase s i Phase.finished with stats := closeStats s.stats ok }

/-- Reachability through pool steps. -/
def PoolReach (C : Nat) : PoolState → PoolState → Prop :=
  Relation.ReflTransGen (PoolStep C)

/-- Initial pool state for `n` submitted tasks. -/
def initPool (n : Nat) : PoolState :=
  ⟨List.replicate n Phase.submitted, ⟨0, 0, 0, 0⟩⟩

/-! ## Timeout handling

In `waitForProcessCompletion` a `setTimeout` races the process: on expiry it
calls `claudeProcess.childProcess.kill()` and rejects with
`Process timed out: <id>`.  `ChildProcess.kill()` signals only the spawned
process itself — processes it spawned in turn are not signalled.  The
rejection lands in `startClaudeProcess`'s catch block, which stores status
'failed' and the error message.
-/

/-- A worker process together with the processes it spawned. -/
structure WorkerProc where
  rootPid : Nat
  childPids : List Nat
deriving DecidableEq, Repr

/-- The mutable per-task record fields touched by the timeout path. -/
structure TaskRec where
  id : String
  status : String
  error : Option String
deriving DecidableEq, Repr

/-- Effect of the deadline firing before process exit: the task record after
the catch block, and the set of pids that received a signal (only the root —
`kill()` does not walk the process tree). -/
def onTimeout (t : TaskRec) (w : WorkerProc) : TaskRec × List Nat :=
  ({ t with status := "failed", error := some ("Process timed out: " ++ t.id) },
   [w.rootPid])

/-! ## `calculateProcessDuration` and the `activeProcesses` registry

An entry is put into `activeProcesses` when the spawn resolves and deleted in
the `finally` block of the same `async` function before its promise settles;
`endTime` is assigned in the same synchronous block as the deletion.  So while
registered, an entry has `endTime` unset, and after `Promise.allSettled`
returns (when `startVariationGeneration` computes durations) no entry of the
session is registered at all.
-/

/-- One value of the `activeProcesses` map. -/
structure ActiveEntry where
  id : String
  startTime : Nat
  endTime : Option Nat
deriving DecidableEq, Repr

/-- Model of `calculateProcessDuration`: find a registered process whose id
contains the given name; `null` when none is found or it has no `endTime`. -/
def calculateProcessDuration (registry : List ActiveEntry) (processId : String) :
    Option Int :=
  match registry.find? (fun p => strIncludes p.id processId) with
  | none => none
  | some p =>
    match p.endTime with
    | none => none
    | some e => some ((e : Int) - (p.startTime : Int))

/-- The registry induced by a pool state: exactly the tasks in phase
`running`, under the id `claude-<name>`, with `endTime` still unset (the
recorded start instant is irrelevant to every claim and kept as 0). -/
def registryOf (names : List String) (s : PoolState) : List ActiveEntry :=
  (names.zip s.phases).filterMap (fun pr =>
    if pr.2 == Phase.running then some ⟨"claude-" ++ pr.1, 0, none⟩ else none)

/-! ## Workspace provisioning concurrency

`startVariationGeneration` provisions the worktrees with
`Promise.all(variationSpecs.map(spec => this.createVariationWorktree(spec)))`.
Each `createVariationWorktree` call runs synchronously up to its first
`await`, which is the repository-mutating `execAsync('git worktree add ...')`
inside `createWorktree`; the shell command is spawned at that point.  The
synchronous `map` therefore issues every git command before any of them can
complete (completions are delivered on later event-loop turns), and no lock
exists anywhere in either manager.
-/

/-- Phase of one variant's provisioning. -/
inductive ProvPhase where
  | pending : ProvPhase
  | gitRunning : ProvPhase
  | provisioned : ProvPhase
deriving DecidableEq, BEq, Repr

/-- Provisioning state of a session: one phase per variant spec. -/
structure ProvState where
  phases : List ProvPhase
deriving DecidableEq, Repr

/-- Replace one variant's provisioning phase. -/
def setProv (s : ProvState) (i : Nat) (p : ProvPhase) : ProvState :=
  ⟨s.phases.set i p⟩

/-- Number of repository-mutating git commands currently in flight. -/
def gitInFlight (s : ProvState) : Nat :=
  (s.phases.filter (fun p => p == ProvPhase.gitRunning)).length

/-- Event-loop steps of the provisioning phase: issuing a variant's
`git worktree add` and that command completing. -/
inductive ProvStep : ProvState → ProvState → Prop where
  | issue (s : ProvState) (i : Nat)
      (h : s.phases.get? i = some ProvPhase.pending) :
      ProvStep s (setProv s i ProvPhase.gitRunning)
  | finish (s : ProvState) (i : Nat)
      (h : s.phases.get? i = some ProvPhase.gitRunning) :
      ProvStep s (setProv s i ProvPhase.provisioned)

/-- Reachability through provisioning steps. -/
def ProvReach : ProvState → ProvState → Prop :=
  Relation.ReflTransGen ProvStep

/-- Initial provisioning state for `n` variant specs. -/
def initProv (n : Nat) : ProvState :=
  ⟨List.replicate n ProvPhase.pending⟩

/-- The state reached when the synchronous `Promise.all` map returns: every
variant's git command has been issued, none has completed. -/
def afterPromiseAllIssues (n : Nat) : ProvState :=
  ⟨List.replicate n ProvPhase.gitRunning⟩

/-! ## Slot admission timing (`waitForAvailableSlot`)

A task that found the pool full waits in `waitForAvailableSlot`, which checks
`activeProcesses.size` immediately and then re-arms a 1000 ms `setTimeout`
after every failed check.  There is no queue of waiters (`processQueue` is
never written): each waiter polls on its own schedule, and a freed slot goes
to whichever waiter polls first after it frees.
-/

/-- The instant at which a waiter that began waiting at `startedWaiting` first
polls at or after the instant `freedAt` when a slot frees: the least
`startedWaiting + 1000·k` that is `≥ freedAt`. -/
def nextPollAt (startedWaiting freedAt : Nat) : Nat :=
  if freedAt ≤ startedWaiting then startedWaiting
  else startedWaiting + 1000 * ((freedAt - startedWaiting + 999) / 1000)

/-! ## Pairwise similarity (`calculateOverallSimilarity`)

`compareVariationPair` stores `difference = Math.abs(scoreA - scoreB)` for the
accessibility and performance dimensions and feeds them, with the visual
similarity, to the weighted sum.  The arithmetic is modelled over `ℚ`.
-/

/-- The weighted sum of `calculateOverallSimilarity` (weights 0.5 / 0.25 /
0.25 fixed in the code). -/
def calculateOverallSimilarity (visualSimilarity accDifference perfDifference : ℚ) : ℚ :=
  visualSimilarity * 0.5 + (1 - accDifference / 100) * 0.25 +
    (1 - perfDifference / 100) * 0.25

/-- Overall similarity as computed for a pair by `compareVariationPair`:
differences are absolute score deltas. -/
def overallSimilarityOfPair (visual accA accB perfA perfB : ℚ) : ℚ :=
  calculateOverallSimilarity visual |accA - accB| |perfA - perfB|

/-! ## Comparison analysis (`analyzeComparisons`) -/

/-- One pairwise comparison as consumed by `analyzeComparisons` (only the
fields it reads). -/
structure Comparison where
  variations : List String
  overallSimilarity : ℚ
deriving DecidableEq, Repr

/-- One entry of the `clusters` array. -/
structure Cluster where
  name : String
  count : Nat
  threshold : String
deriving DecidableEq, Repr

/-- The analysis object. -/
structure Analysis where
  totalComparisons : Nat
  averageSimilarity : ℚ
  mostSimilarPair : Option Comparison
  mostDifferentPair : Option Comparison
  clusters : List Cluster
deriving DecidableEq, Repr

/-- Insert into a descending-by-similarity list (the stable descending sort
performed by `sort((a, b) => b.overallSimilarity - a.overallSimilarity)`). -/
def insertBySimilarityDesc (c : Comparison) : List Comparison → List Comparison
  | [] => [c]
  | d :: ds =>
    if d.overallSimilarity < c.overallSimilarity then c :: d :: ds
    else d :: insertBySimilarityDesc c ds

/-- Descending stable sort by overall similarity. -/
def sortBySimilarityDesc (l : List Comparison) : List Comparison :=
  l.foldr insertBySimilarityDesc []

/-- Model of `analyzeComparisons`: the zero/empty analysis is returned as-is
for an empty input; otherwise the mean, extreme pairs and threshold buckets
are filled in. -/
def analyzeComparisons (comparisons : List Comparison) : Analysis :=
  let base : Analysis :=
    { totalComparisons := comparisons.length
      averageSimilarity := 0
      mostSimilarPair := none
      mostDifferentPair := none
      clusters := [] }
  if comparisons.length = 0 then base
  else
    let sorted := sortBySimilarityDesc comparisons
    let highSimilarity := comparisons.filter
      (fun c => decide ((0.8 : ℚ) < c.overallSimilarity))
    let mediumSimilarity := comparisons.filter
      (fun c => decide ((0.6 : ℚ) < c.overallSimilarity ∧ c.overallSimilarity ≤ 0.8))
    let lowSimilarity := comparisons.filter
      (fun c => decide (c.overallSimilarity ≤ (0.6 : ℚ)))
    { base with
      averageSimilarity :=
        (comparisons.map (fun c => c.overallSimilarity)).sum / comparisons.length
      mostSimilarPair := sorted.head?
      mostDifferentPair := sorted.getLast?
      clusters :=
        [⟨"High Similarity", highSimilarity.length, ">80%"⟩,
         ⟨"Medium Similarity", mediumSimilarity.length, "60-80%"⟩,
         ⟨"Low Similarity", lowSimilarity.length, "<60%"⟩] }

/-! ## Session assembly (`startVariationGeneration`)

Provisioning outcomes are combined with `Promise.all` — a single rejection
rejects the whole session, which the surrounding catch logs and re-throws —
while the worker tasks are combined with `Promise.allSettled`, each entry of
`session.results` getting `success: result.status === 'fulfilled'`.
`Promise.all`'s rejection value is modelled as the first erroring spec in list
order; every claim below depends only on the session being an error.
-/

/-- A provisioned worktree (only its identity matters here). -/
structure Worktree where
  name : String
deriving DecidableEq, Repr

/-- How one task's promise settled: `rejected` corresponds to a thrown spawn
error or timeout, `fulfilled` to a resolved result whose own `success` flag
records the exit code. -/
inductive SettledOutcome where
  | fulfilled (resultSuccess : Bool) : SettledOutcome
  | rejected (reason : String) : SettledOutcome
deriving DecidableEq, Repr

/-- One entry of `session.results`. -/
structure SessionEntry where
  variation : String
  success : Bool
deriving DecidableEq, Repr

/-- `Promise.all` over provisioning promises. -/
def collectAll : List (Except String Worktree) → Except String (List Worktree)
  | [] => Except.ok []
  | Except.ok w :: rest => (collectAll rest).map (fun ws => w :: ws)
  | Except.error e :: _ => Except.error e

/-- The session entry recorded for one settled task promise. -/
def entryOf (name : String) (o : SettledOutcome) : SessionEntry :=
  { variation := name
    success :=
      match o with
      | SettledOutcome.fulfilled _ => true
      | SettledOutcome.rejected _ => false }

/-- Model of `startVariationGeneration`: provision every spec (`Promise.all`),
then run one task per worktree and record every settled outcome
(`Promise.allSettled`).  An error value models the session-level throw. -/
def startVariationGeneration (specs : List String)
    (provision : String → Except String Worktree)
    (run : Worktree → SettledOutcome) : Except String (List SessionEntry) :=
  match collectAll (specs.map provision) with
  | Except.error e => Except.error e
  | Except.ok worktrees =>
    Except.ok ((specs.zip worktrees).map (fun pr => entryOf pr.1 (run pr.2)))

/-! ## Helper lemmas -/

/-- Setting a running task's phase to a non-running phase decrements the
registry size by exactly one. -/
theorem filter_running_set {l : List Phase} {i : Nat}
    (h : l.get? i = some Phase.running) {p : Phase}
    (hp : (p == Phase.running) = false) :
    ((l.set i p).filter (fun q => q == Phase.running)).length + 1 =
      (l.filter (fun q => q == Phase.running)).length := by
  induction l generalizing i with
  | nil => simp at h
  | cons a t ih =>
    cases i with
    | zero =>
      have ha : a = Phase.running := by simpa using h
      subst ha
      simp [List.set, List.filter_cons, hp,
        show (Phase.running == Phase.running) = true from rfl]
    | succ n =>
      have h' : t.get? n = some Phase.running := by simpa using h
      have hrec := ih h'
      by_cases ha : (a == Phase.running) = true
      · simp only [List.set, List.filter_cons, ha, if_true, List.length_cons]
        omega
      · simp only [List.set, List.filter_cons, ha, Bool.false_eq_true, if_false]
        exact hrec

/-- `Promise.all` over a list of provisioning calls that all succeed collects
the worktrees in order. -/
theorem collectAll_map_ok (provision : String → Except String Worktree)
    (wf : String → Worktree) :
    ∀ specs : List String,
      (∀ nm ∈ specs, provision nm = Except.ok (wf nm)) →
      collectAll (specs.map provision) = Except.ok (specs.map wf)
  | [], _ => rfl
  | nm :: rest, h => by
    simp only [List.map_cons]
    rw [h nm (List.mem_cons_self nm rest)]
    show (collectAll (rest.map provision)).map (fun ws => wf nm :: ws) = _
    rw [collectAll_map_ok provision wf rest
      (fun x hx => h x (List.mem_cons_of_mem nm hx))]
    rfl

/-! ## Claims -/

/-- C1: claimed that at every instant at most `C` tasks are `Running`.  The
code violates this: the capacity check at line 133 reads
`activeProcesses.size` before suspending at `await spawnClaudeProcess`, while
registration happens only after that `await` resumes, so every task of a
batch passes the check before any registers.  With capacity 1 and two
submitted tasks, a reachable pool state has two tasks in the running phase. -/
theorem pool_capacity_exceeded :
    ∃ s : PoolState, PoolReach 1 (initPool 2) s ∧ 1 < runningCount s := by
  refine ⟨⟨[Phase.running, Phase.running], ⟨2, 0, 0, 2⟩⟩, ?_, by decide⟩
  have h1 : PoolStep 1 (initPool 2)
      ⟨[Phase.spawning, Phase.submitted], ⟨0, 0, 0, 0⟩⟩ :=
    PoolStep.checkPass _ 0 rfl (by decide)
  have h2 : PoolStep 1 ⟨[Phase.spawning, Phase.submitted], ⟨0, 0, 0, 0⟩⟩
      ⟨[Phase.spawning, Phase.spawning], ⟨0, 0, 0, 0⟩⟩ :=
    PoolStep.checkPass _ 1 rfl (by decide)
  have h3 : PoolStep 1 ⟨[Phase.spawning, Phase.spawning], ⟨0, 0, 0, 0⟩⟩
      ⟨[Phase.running, Phase.spawning], ⟨1, 0, 0, 1⟩⟩ :=
    PoolStep.spawned _ 0 rfl
  have h4 : PoolStep 1 ⟨[Phase.running, Phase.spawning], ⟨1, 0, 0, 1⟩⟩
      ⟨[Phase.running, Phase.running], ⟨2, 0, 0, 2⟩⟩ :=
    PoolStep.spawned _ 1 rfl
  exact Relation.ReflTransGen.tail
    (Relation.ReflTransGen.tail
      (Relation.ReflTransGen.tail
        (Relation.ReflTransGen.tail Relation.ReflTransGen.refl h1) h2) h3) h4

/-- C2 counterexample: the claim says the entire process tree is terminated
on timeout.  The timeout handler calls `childProcess.kill()`, which signals
only the worker process itself: a child pid (here 6) belongs to the tree but
is not in the killed set, and the task ends with status 'failed' (there is no
distinct TimedOut status in the code). -/
theorem timeout_kill_misses_children :
    6 ∈ (WorkerProc.mk 5 [6]).rootPid :: (WorkerProc.mk 5 [6]).childPids ∧
    6 ∉ (onTimeout ⟨"claude-modern", "running", none⟩ ⟨5, [6]⟩).2 ∧
    (onTimeout ⟨"claude-modern", "running", none⟩ ⟨5, [6]⟩).1.status = "failed" := by
  refine ⟨by decide, by decide, rfl⟩

/-- C2 (amended): on timeout only the worker process itself is signalled and
the task ends in the failed terminal status with a timeout error; the failure
is local: closing the timed-out task is a pool step that leaves every other
task's phase unchanged, and it frees the slot so that a waiting task's next
poll admits it. -/
theorem timeout_is_task_local (t : TaskRec) (w : WorkerProc) (s : PoolState)
    (C i j : Nat)
    (hi : s.phases.get? i = some Phase.running)
    (hj : s.phases.get? j = some Phase.waiting)
    (hfull : runningCount s = C) (hij : i ≠ j) :
    (onTimeout t w).2 = [w.rootPid] ∧
    (onTimeout t w).1.status = "failed" ∧
    (onTimeout t w).1.error = some ("Process timed out: " ++ t.id) ∧
    PoolStep C s { setPhase s i Phase.finished with stats := closeStats s.stats false } ∧
    (∀ k, k ≠ i →
      ({ setPhase s i Phase.finished with stats := closeStats s.stats false } :
        PoolState).phases.get? k = s.phases.get? k) ∧
    PoolStep C { setPhase s i Phase.finished with stats := closeStats s.stats false }
      (setPhase { setPhase s i Phase.finished with stats := closeStats s.stats false }
        j Phase.spawning) := by
  have hdec : runningCount (setPhase s i Phase.finished) + 1 = runningCount s := by
    simpa [runningCount, setPhase] using
      filter_running_set (l := s.phases) (i := i) hi (p := Phase.finished) rfl
  refine ⟨rfl, rfl, rfl, PoolStep.closed s i false hi, ?_, ?_⟩
  · intro k hk
    show (s.phases.set i Phase.finished).get? k = s.phases.get? k
    exact List.get?_set_ne _ _ (fun he => hk he.symm)
  · refine PoolStep.pollPass _ j ?_ ?_
    · show (s.phases.set i Phase.finished).get? j = some Phase.waiting
      rw [List.get?_set_ne _ _ hij]
      exact hj
    · show runningCount (setPhase s i Phase.finished) < C
      omega

/-- C2 witness: a concrete full pool (capacity 1) with task 0 running and
task 1 waiting; the timeout of task 0 signals only pid 5, marks it failed,
leaves task 1 untouched and then admits it. -/
theorem timeout_is_task_local_witness :
    (onTimeout ⟨"claude-a", "running", none⟩ ⟨5, [6]⟩).2 = [5] ∧
    (onTimeout ⟨"claude-a", "running", none⟩ ⟨5, [6]⟩).1.status = "failed" ∧
    (onTimeout ⟨"claude-a", "running", none⟩ ⟨5, [6]⟩).1.error =
      some ("Process timed out: " ++ "claude-a") ∧
    PoolStep 1 ⟨[Phase.running, Phase.waiting], ⟨1, 0, 0, 1⟩⟩
      { setPhase ⟨[Phase.running, Phase.waiting], ⟨1, 0, 0, 1⟩⟩ 0 Phase.finished with
        stats := closeStats (⟨[Phase.running, Phase.waiting], ⟨1, 0, 0, 1⟩⟩ :
          PoolState).stats false } ∧
    (∀ k, k ≠ 0 →
      ({ setPhase ⟨[Phase.running, Phase.waiting], ⟨1, 0, 0, 1⟩⟩ 0 Phase.finished with
        stats := closeStats (⟨[Phase.running, Phase.waiting], ⟨1, 0, 0, 1⟩⟩ :
          PoolState).stats false } : PoolState).phases.get? k =
        (⟨[Phase.running, Phase.waiting], ⟨1, 0, 0, 1⟩⟩ : PoolState).phases.get? k) ∧
    PoolStep 1
      { setPhase ⟨[Phase.running, Phase.waiting], ⟨1, 0, 0, 1⟩⟩ 0 Phase.finished with
        stats := closeStats (⟨[Phase.running, Phase.waiting], ⟨1, 0, 0, 1⟩⟩ :
          PoolState).stats false }
      (setPhase
        { setPhase ⟨[Phase.running, Phase.waiting], ⟨1, 0, 0, 1⟩⟩ 0 Phase.finished with
          stats := closeStats (⟨[Phase.running, Phase.waiting], ⟨1, 0, 0, 1⟩⟩ :
            PoolState).stats false } 1 Phase.spawning) :=
  timeout_is_task_local ⟨"claude-a", "running", none⟩ ⟨5, [6]⟩
    ⟨[Phase.running, Phase.waiting], ⟨1, 0, 0, 1⟩⟩ 1 0 1 rfl rfl rfl (by decide)

/-- C3: claimed that repository-mutating provisioning operations are mutually
exclusive.  The code launches every `createVariationWorktree` through
`Promise.all`; the synchronous map issues each variant's `git worktree add`
before any completes, and no lock exists, so the state with both git commands
in flight is reached. -/
theorem provisioning_not_serialized :
    ProvReach (initProv 2) (afterPromiseAllIssues 2) ∧
    1 < gitInFlight (afterPromiseAllIssues 2) := by
  constructor
  · have h1 : ProvStep (initProv 2) ⟨[ProvPhase.gitRunning, ProvPhase.pending]⟩ :=
      ProvStep.issue _ 0 rfl
    have h2 : ProvStep ⟨[ProvPhase.gitRunning, ProvPhase.pending]⟩
        (afterPromiseAllIssues 2) :=
      ProvStep.issue _ 1 rfl
    exact Relation.ReflTransGen.tail
      (Relation.ReflTransGen.tail Relation.ReflTransGen.refl h1) h2
  · decide

/-- C4 counterexample: with independent 1-second polling there is no FIFO
admission.  A waiter that began waiting at t=0 polls at 0, 1000, 2000; one
that began at t=500 polls at 500, 1500.  If the slot frees at t=1200, the
later waiter is admitted at 1500, before the earlier one's 2000 poll. -/
theorem admission_not_fifo :
    nextPollAt 0 1200 = 2000 ∧ nextPollAt 500 1200 = 1500 ∧
    nextPollAt 500 1200 < nextPollAt 0 1200 := by decide

/-- C4 (amended): a freed slot is taken at the earliest subsequent poll, and
among waiters whose wait start times differ by a whole number of polling
intervals the earlier-started waiter polls no later, so admission respects
submission order exactly in that phase-aligned case. -/
theorem aligned_waiters_admitted_in_order (sA sB f : Nat) (hle : sA ≤ sB)
    (hphase : (sB - sA) % 1000 = 0) :
    nextPollAt sA f ≤ nextPollAt sB f := by
  unfold nextPollAt
  split_ifs <;> omega

/-- C4 witness: waiters phase-aligned at 0 and 2000 with the slot freeing at
2500 are admitted in submission order. -/
theorem aligned_waiters_admitted_in_order_witness :
    (0 : Nat) ≤ 2000 ∧ (2000 - 0) % 1000 = 0 ∧
    nextPollAt 0 2500 ≤ nextPollAt 2000 2500 :=
  ⟨by decide, by decide,
    aligned_waiters_admitted_in_order 0 2000 2500 (by decide) (by decide)⟩

/-- C5 counterexample: the claim says the last syntactically valid JSON line
is preferred.  On stdout whose first line is valid JSON and whose last
JSON-looking line is malformed, the code attempts `JSON.parse` only on that
last line and, when it throws, abandons JSON entirely in favour of marker
extraction — the valid JSON object is never returned. -/
theorem last_valid_json_line_not_preferred :
    jsonParse "\x7b\"a\":1\x7d" = some (Json.obj [("a", Json.num "1")]) ∧
    isJsonishLine "\x7b\"a\":1\x7d" = true ∧
    parseClaudeOutput "\x7b\"a\":1\x7d\n\x7bbad" =
      ClaudeOutput.structured ⟨[], [], [], []⟩ :=
  ⟨rfl, rfl, rfl⟩

/-- C5 (amended): a worker exiting with code 0 always yields a completed
task whose result is `parseClaudeOutput(stdout)` — `JSON.parse` attempted on
the last line beginning with a brace or bracket, marker extraction otherwise —
and stdout with no JSON-looking line still completes with the marker
object, never a failure. -/
theorem exit_zero_always_completed (stdout : String) :
    statusAfterClose (handleClose 0 stdout) = "completed" ∧
    (handleClose 0 stdout).outputs = parseClaudeOutput stdout ∧
    (((splitLines stdout).filter isJsonishLine) = [] →
      parseClaudeOutput stdout =
        ClaudeOutput.structured (parseStructuredOutput stdout)) := by
  refine ⟨rfl, rfl, fun h => ?_⟩
  simp [parseClaudeOutput, h]

/-- C5 witness: plain-text stdout has no JSON-looking line; the task is
completed with the marker-extraction object. -/
theorem exit_zero_always_completed_witness :
    ((splitLines "npm warn old lockfile").filter isJsonishLine) = [] ∧
    parseClaudeOutput "npm warn old lockfile" =
      ClaudeOutput.structured (parseStructuredOutput "npm warn old lockfile") ∧
    statusAfterClose (handleClose 0 "npm warn old lockfile") = "completed" :=
  ⟨rfl, (exit_zero_always_completed "npm warn old lockfile").2.2 rfl,
    (exit_zero_always_completed "npm warn old lockfile").1⟩

/-- C6: the overall similarity is the stated weighted sum, lies in [0, 1]
for visual similarity in [0, 1] and scores in [0, 100], and equals exactly 1
when the visual score is 1 and the per-dimension scores coincide. -/
theorem overall_similarity_weighted_sum (v aA aB pA pB : ℚ)
    (hv0 : 0 ≤ v) (hv1 : v ≤ 1)
    (haA0 : 0 ≤ aA) (haA1 : aA ≤ 100) (haB0 : 0 ≤ aB) (haB1 : aB ≤ 100)
    (hpA0 : 0 ≤ pA) (hpA1 : pA ≤ 100) (hpB0 : 0 ≤ pB) (hpB1 : pB ≤ 100) :
    overallSimilarityOfPair v aA aB pA pB
      = 0.5 * v + 0.25 * (1 - |aA - aB| / 100) + 0.25 * (1 - |pA - pB| / 100) ∧
    0 ≤ overallSimilarityOfPair v aA aB pA pB ∧
    overallSimilarityOfPair v aA aB pA pB ≤ 1 ∧
    ((v = 1 ∧ aA = aB ∧ pA = pB) →
      overallSimilarityOfPair v aA aB pA pB = 1) := by
  have hA1 : |aA - aB| ≤ 100 := abs_le.mpr ⟨by linarith, by linarith⟩
  have hA0 : 0 ≤ |aA - aB| := abs_nonneg _
  have hP1 : |pA - pB| ≤ 100 := abs_le.mpr ⟨by linarith, by linarith⟩
  have hP0 : 0 ≤ |pA - pB| := abs_nonneg _
  unfold overallSimilarityOfPair calculateOverallSimilarity
  refine ⟨by ring, ?_, ?_, ?_⟩
  · nlinarith [hA1, hP1]
  · nlinarith [hA0, hP0]
  · rintro ⟨h1, h2, h3⟩
    rw [h1, h2, h3]
    simp only [sub_self, abs_zero]
    norm_num

/-- C6 witness: visual 3/4 with accessibility scores 90/80 and performance
scores 70/70 satisfies the formula, the bounds, and (vacuously) the
perfect-score case. -/
theorem overall_similarity_weighted_sum_witness :
    overallSimilarityOfPair (3/4) 90 80 70 70
      = 0.5 * (3/4) + 0.25 * (1 - |(90 : ℚ) - 80| / 100) +
        0.25 * (1 - |(70 : ℚ) - 70| / 100) ∧
    0 ≤ overallSimilarityOfPair (3/4) 90 80 70 70 ∧
    overallSimilarityOfPair (3/4) 90 80 70 70 ≤ 1 ∧
    (((3 : ℚ)/4 = 1 ∧ (90 : ℚ) = 80 ∧ (70 : ℚ) = 70) →
      overallSimilarityOfPair (3/4) 90 80 70 70 = 1) :=
  overall_similarity_weighted_sum (3/4) 90 80 70 70 (by norm_num) (by norm_num)
    (by norm_num) (by norm_num) (by norm_num) (by norm_num) (by norm_num)
    (by norm_num) (by norm_num) (by norm_num)

/-- C7: on an empty comparison list the analysis returns normally with
average similarity 0, no extreme pairs, and an empty cluster list (the early
return keeps the zeroed object, so no division or indexing is attempted). -/
theorem analyzeComparisons_empty :
    analyzeComparisons [] = ⟨0, 0, none, none, []⟩ := rfl

/-- C8 counterexample: the claim says a provisioning failure is local to its
variant.  With two specs where only the second variant's worktree creation
fails and every spawned task would succeed, the whole session is an error
(the `Promise.all` rejection is re-thrown): no report, and the healthy
variant gets no session entry either. -/
theorem provisioning_failure_aborts_session :
    startVariationGeneration ["modern", "minimal"]
      (fun nm => if nm == "minimal" then Except.error "worktree creation failed"
        else Except.ok ⟨nm⟩)
      (fun _ => SettledOutcome.fulfilled true)
      = Except.error "worktree creation failed" := rfl

/-- C8 (amended): once provisioning succeeds for every spec, per-task errors
are local — the session resolves with one entry per spec, each computed only
from that spec's own worktree and settled outcome. -/
theorem session_task_errors_are_local (specs : List String)
    (provision : String → Except String Worktree) (wf : String → Worktree)
    (run : Worktree → SettledOutcome)
    (hprov : ∀ nm ∈ specs, provision nm = Except.ok (wf nm)) :
    startVariationGeneration specs provision run =
      Except.ok (specs.map (fun nm => entryOf nm (run (wf nm)))) := by
  have hz : ∀ l : List String, l.zip (l.map wf) = l.map (fun a => (a, wf a)) := by
    intro l
    induction l with
    | nil => rfl
    | cons x xs ih => simp [List.map_cons, List.zip_cons_cons, ih]
  unfold startVariationGeneration
  rw [collectAll_map_ok provision wf specs hprov]
  show Except.ok ((specs.zip (specs.map wf)).map (fun pr => entryOf pr.1 (run pr.2)))
      = Except.ok (specs.map (fun nm => entryOf nm (run (wf nm))))
  rw [hz specs, List.map_map]
  rfl

/-- C8 witness: two specs that both provision; the second task's spawn
rejection is recorded on its own entry while the first succeeds. -/
theorem session_task_errors_are_local_witness :
    startVariationGeneration ["modern", "minimal"]
      (fun nm => Except.ok ⟨nm⟩)
      (fun w => if w.name == "minimal" then SettledOutcome.rejected "spawn failed"
        else SettledOutcome.fulfilled true)
      = Except.ok [⟨"modern", true⟩, ⟨"minimal", false⟩] := by
  have h := session_task_errors_are_local ["modern", "minimal"]
    (fun nm => Except.ok ⟨nm⟩) (fun nm => ⟨nm⟩)
    (fun w => if w.name == "minimal" then SettledOutcome.rejected "spawn failed"
      else SettledOutcome.fulfilled true)
    (fun _ _ => rfl)
  exact h

/-- C9: `parseClaudeOutput` is total on strings: every stdout — the empty
string included — yields either the JSON value parsed from the last line
beginning with a brace or bracket, or the marker-extraction object with its
four array fields (a `JSON.parse` exception is absorbed by the fallback). -/
theorem parseClaudeOutput_total_shape :
    (∀ stdout : String,
      (∃ l v, ((splitLines stdout).filter isJsonishLine).getLast? = some l ∧
        jsonParse l = some v ∧ parseClaudeOutput stdout = ClaudeOutput.json v) ∨
      parseClaudeOutput stdout =
        ClaudeOutput.structured (parseStructuredOutput stdout)) ∧
    parseClaudeOutput "" = ClaudeOutput.structured ⟨[], [], [], []⟩ := by
  constructor
  · intro stdout
    cases hl : ((splitLines stdout).filter isJsonishLine).getLast? with
    | none =>
      right
      simp [parseClaudeOutput, hl]
    | some l =>
      cases hv : jsonParse l with
      | none =>
        right
        simp [parseClaudeOutput, hl, hv]
      | some v =>
        exact Or.inl ⟨l, v, rfl, hv, by simp [parseClaudeOutput, hl, hv]⟩
  · rfl

/-- C10: once every task of the session has finished — which is the case
when `Promise.allSettled` has resolved and `startVariationGeneration`
computes durations — the `activeProcesses` registry holds none of them, so
`calculateProcessDuration` returns null for every variant name. -/
theorem durations_always_null (s : PoolState) (names : List String)
    (nm : String) (hdone : ∀ p ∈ s.phases, p = Phase.finished) :
    calculateProcessDuration (registryOf names s) nm = none := by
  have hreg : registryOf names s = [] := by
    unfold registryOf
    rw [List.filterMap_eq_nil_iff]
    intro pr hpr
    have h2 : pr.2 ∈ s.phases := (List.of_mem_zip hpr).2
    rw [hdone pr.2 h2]
    rfl
  rw [hreg]
  rfl

/-- C10 witness: a finished two-task session yields a null duration for a
concrete variant name. -/
theorem durations_always_null_witness :
    (∀ p ∈ ([Phase.finished, Phase.finished] : List Phase), p = Phase.finished) ∧
    calculateProcessDuration
      (registryOf ["modern", "minimal"]
        ⟨[Phase.finished, Phase.finished], ⟨2, 1, 1, 0⟩⟩) "modern" = none :=
  have hd : ∀ p ∈ ([Phase.finished, Phase.finished] : List Phase),
      p = Phase.finished := by
    intro p hp
    simp only [List.mem_cons, List.not_mem_nil, or_false] at hp
    rcases hp with h | h <;> exact h
  ⟨hd,
    durations_always_null ⟨[Phase.finished, Phase.finished], ⟨2, 1, 1, 0⟩⟩
      ["modern", "minimal"] "modern" hd⟩

end ClaudeOrchestrator
